import Mathlib

/-!
Verification of the central render context of makepad (src/render/src/cx.rs).

The source file declares the `Cx` struct (resource arenas with free stacks,
fingerprint caches, double-buffered redraw lists, generation counters, the
signal map), the `PlatformType` enum with `is_desktop`, and `Cx::default`.
The methods operating on those fields live in other files of the repository;
where a claim concerns such a method, the operation is modelled from the
spec (its doc comment starts with "Modelled from the spec:"), while every
declared field, type and default value below is translated from cx.rs.

Collaborator-typed fields of `Cx` (platform handles, registries, fonts,
input state) are outside the claims and are not embedded.
-/

/-- Embedding of the Rust enum `PlatformType` (cx.rs lines 170-176). -/
inductive PlatformType
  | Unknown : PlatformType
  | Windows : PlatformType
  | OSX : PlatformType
  | Linux (custom_window_chrome : Bool) : PlatformType
  | Web (protocol hostname : String) (port : Nat)
      (pathname search hash : String) : PlatformType
deriving DecidableEq

/-- Embedding of `PlatformType::is_desktop` (cx.rs lines 179-187). -/
def PlatformType.is_desktop : PlatformType → Bool
  | PlatformType.Unknown => true
  | PlatformType.Windows => true
  | PlatformType.OSX => true
  | PlatformType.Linux _ => true
  | PlatformType.Web _ _ _ _ _ _ => false

/-- Embedding of `TextureFormat`; only the variant used in cx.rs is needed
(the defining module texture.rs is a collaborator outside this file). -/
inductive TextureFormat
  | ImageBGRA : TextureFormat
deriving DecidableEq

/-- Embedding of `TextureDesc` as used by `Cx::default` (cx.rs 208-213). -/
structure TextureDesc where
  format : TextureFormat
  width : Option Nat
  height : Option Nat
  multisample : Option Nat
deriving DecidableEq

/-- Embedding of `CxTexture` as used by `Cx::default` (cx.rs 207-218);
the opaque platform handle is modelled as `Unit` and the f32 image plane,
always empty here, keeps only its length-relevant list structure. -/
structure CxTexture where
  desc : TextureDesc
  image_u32 : List Nat
  image_f32 : List Unit
  update_image : Bool
  platform : Unit
deriving DecidableEq

/-- A slab arena: one of the resource `Vec`s of `Cx` (windows, passes,
views, textures, geometries) paired with its `*_free` free-index stack
(cx.rs lines 82-99). Only slot indices matter for the allocation
discipline, so the arena is embedded as its length plus free stack. -/
structure Arena where
  len : Nat
  free : List Nat
deriving DecidableEq

/-- Modelled from the spec: the slab-arena `allocate` (spec 4.1); the arena
methods are not in cx.rs, only the `Vec` + free-stack fields are. Pops a
reused free index if the free stack is non-empty, else appends a new slot. -/
def Arena.allocate : Arena → Nat × Arena
  | ⟨len, []⟩ => (len, ⟨len + 1, []⟩)
  | ⟨len, i :: rest⟩ => (i, ⟨len, rest⟩)

/-- A slot index is live when it is in range and not on the free stack. -/
def Arena.live (a : Arena) (i : Nat) : Bool :=
  decide (i < a.len) && !decide (i ∈ a.free)

/-- Modelled from the spec: `release(id)` pushes onto the free stack and
rejects a double release or an out-of-range index (spec 4.1). -/
def Arena.release (a : Arena) (i : Nat) : Option Arena :=
  if a.live i then some ⟨a.len, i :: a.free⟩ else none

/-- Well-formedness of an arena: the free stack holds distinct in-range
indices. Holds for every `*_free` field of `Cx::default` (all empty). -/
def Arena.WF (a : Arena) : Prop :=
  a.free.Nodup ∧ ∀ i ∈ a.free, i < a.len

instance (a : Arena) : Decidable a.WF := by
  unfold Arena.WF; infer_instance

/-- The list of currently live slot indices of an arena. -/
def Arena.liveList (a : Arena) : List Nat :=
  (List.range a.len).filter (fun i => a.live i)

/-- One client operation on a slab arena. -/
inductive ArenaOp
  | alloc : ArenaOp
  | rel (i : Nat) : ArenaOp
deriving DecidableEq

/-- Apply one operation; a rejected release leaves the arena unchanged
(the spec makes double release a logged programmer error, not a crash). -/
def Arena.step (a : Arena) : ArenaOp → Arena
  | ArenaOp.alloc => (a.allocate).2
  | ArenaOp.rel i => (a.release i).getD a

/-- Apply a whole sequence of arena operations. -/
def Arena.applyOps (a : Arena) (ops : List ArenaOp) : Arena :=
  ops.foldl Arena.step a

theorem Arena.live_iff {a : Arena} {i : Nat} :
    a.live i = true ↔ i < a.len ∧ i ∉ a.free := by
  simp [Arena.live]

theorem Arena.WF.step {a : Arena} (h : a.WF) (op : ArenaOp) : (a.step op).WF := by
  obtain ⟨hnd, hlt⟩ := h
  cases op with
  | alloc =>
    obtain ⟨len, free⟩ := a
    cases free with
    | nil => exact ⟨List.nodup_nil, by intro i hi; cases hi⟩
    | cons i rest =>
      exact ⟨(List.nodup_cons.mp hnd).2, fun j hj => hlt j (List.mem_cons_of_mem _ hj)⟩
  | rel i =>
    simp only [Arena.step, Arena.release]
    by_cases hl : a.live i = true
    · obtain ⟨hilen, hni⟩ := Arena.live_iff.mp hl
      simp only [hl, if_true, Option.getD_some]
      refine ⟨List.nodup_cons.mpr ⟨hni, hnd⟩, fun j hj => ?_⟩
      rcases List.mem_cons.mp hj with rfl | hj
      · exact hilen
      · exact hlt j hj
    · simp only [Bool.not_eq_true] at hl
      simp only [hl, Bool.false_eq_true, if_false, Option.getD_none]
      exact ⟨hnd, hlt⟩

theorem Arena.WF.applyOps {a : Arena} (h : a.WF) (ops : List ArenaOp) :
    (a.applyOps ops).WF := by
  induction ops generalizing a with
  | nil => exact h
  | cons op rest ih => exact ih (h.step op)

theorem Arena.allocate_not_live {a : Arena} (h : a.WF) :
    a.live (a.allocate).1 = false := by
  obtain ⟨len, free⟩ := a
  cases free with
  | nil =>
    simp [Arena.allocate, Arena.live]
  | cons i rest =>
    simp [Arena.allocate, Arena.live]

theorem Arena.allocate_fst (a : Arena) :
    (a.allocate).1 = a.free.headD a.len := by
  obtain ⟨len, free⟩ := a
  cases free <;> rfl

theorem Arena.allocate_len (a : Arena) :
    (a.allocate).2.len = if a.free = [] then a.len + 1 else a.len := by
  obtain ⟨len, free⟩ := a
  cases free <;> simp [Arena.allocate]

theorem Arena.liveList_nodup (a : Arena) : a.liveList.Nodup :=
  List.Nodup.filter _ (List.nodup_range a.len)

theorem Arena.mem_liveList {a : Arena} {v : Nat} :
    v ∈ a.liveList ↔ a.live v = true := by
  unfold Arena.liveList
  constructor
  · intro hv
    exact (List.mem_filter.mp hv).2
  · intro hv
    exact List.mem_filter.mpr ⟨List.mem_range.mpr (Arena.live_iff.mp hv).1, hv⟩

theorem Arena.allocate_live {a : Arena} (h : a.WF) :
    (a.allocate).2.live (a.allocate).1 = true := by
  obtain ⟨hnd, hlt⟩ := h
  obtain ⟨len, free⟩ := a
  cases free with
  | nil =>
    simp [Arena.allocate, Arena.live]
  | cons i rest =>
    simp only [Arena.allocate, Arena.live, Bool.and_eq_true, Bool.not_eq_true',
      decide_eq_true_eq, decide_eq_false_iff_not]
    exact ⟨hlt i (List.mem_cons_self i rest), (List.nodup_cons.mp hnd).1⟩

/-- The six per-concern generation counters carried by `Cx` (cx.rs
lines 125-130). -/
inductive GenConcern
  | redraw : GenConcern
  | repaint : GenConcern
  | event : GenConcern
  | timer : GenConcern
  | nextFrame : GenConcern
  | signal : GenConcern
deriving DecidableEq

/-- Declared Rust integer width of each generation counter field of `Cx`:
`redraw_id`, `repaint_id`, `event_id`, `timer_id`, `next_frame_id` are
`u64` (64 bits); `signal_id` is `usize`, whose width is the platform
pointer width `ptrBits` (64 on desktop targets, 32 on the wasm32 target
behind `PlatformType.Web`). -/
def genCounterWidth (ptrBits : Nat) : GenConcern → Nat
  | GenConcern.signal => ptrBits
  | _ => 64

/-- The generation-counter fields of `Cx`, as unbounded naturals (the spec
asserts they never reset, so no wraparound is modelled). -/
structure GenCounters where
  redraw_id : Nat
  repaint_id : Nat
  event_id : Nat
  timer_id : Nat
  next_frame_id : Nat
  signal_id : Nat
deriving DecidableEq

/-- Read the counter of one concern. -/
def GenCounters.get (s : GenCounters) : GenConcern → Nat
  | GenConcern.redraw => s.redraw_id
  | GenConcern.repaint => s.repaint_id
  | GenConcern.event => s.event_id
  | GenConcern.timer => s.timer_id
  | GenConcern.nextFrame => s.next_frame_id
  | GenConcern.signal => s.signal_id

/-- Modelled from the spec: advancing one generation counter (the scheduler
increments the counter of a concern once per cycle; increments are the only
mutation, counters never reset). -/
def GenCounters.incr (s : GenCounters) : GenConcern → GenCounters
  | GenConcern.redraw => { s with redraw_id := s.redraw_id + 1 }
  | GenConcern.repaint => { s with repaint_id := s.repaint_id + 1 }
  | GenConcern.event => { s with event_id := s.event_id + 1 }
  | GenConcern.timer => { s with timer_id := s.timer_id + 1 }
  | GenConcern.nextFrame => { s with next_frame_id := s.next_frame_id + 1 }
  | GenConcern.signal => { s with signal_id := s.signal_id + 1 }

/-- Apply a whole sequence of counter advances. -/
def GenCounters.incrAll (s : GenCounters) (cs : List GenConcern) : GenCounters :=
  cs.foldl GenCounters.incr s

theorem GenCounters.get_incr_le (s : GenCounters) (c c' : GenConcern) :
    s.get c ≤ (s.incr c').get c := by
  cases c <;> cases c' <;> simp [GenCounters.get, GenCounters.incr]

theorem GenCounters.get_incrAll_le (s : GenCounters) (cs : List GenConcern)
    (c : GenConcern) : s.get c ≤ (s.incrAll cs).get c := by
  induction cs generalizing s with
  | nil => exact Nat.le_refl _
  | cons c' rest ih =>
    exact Nat.le_trans (s.get_incr_le c c') (ih (s.incr c'))

/-- The double-buffered dirty-tracking state of `Cx` (cx.rs lines 118-125):
`redraw_views` collects marks for the next cycle, `_redraw_views` is the
traversal set of the cycle in flight, with the matching pair of
redraw-all flags and the redraw generation counter. -/
structure Scheduler where
  redraw_views : List Nat
  _redraw_views : List Nat
  redraw_all_views : Bool
  _redraw_all_views : Bool
  redraw_id : Nat
deriving DecidableEq

/-- Modelled from the spec: `mark_dirty(view_id)` appends to the pending
buffer `redraw_views` (spec 4.4); the method body is not in cx.rs. -/
def Scheduler.mark_dirty (s : Scheduler) (v : Nat) : Scheduler :=
  { s with redraw_views := s.redraw_views ++ [v] }

/-- Issue a list of marks in order. -/
def Scheduler.markAll (s : Scheduler) (vs : List Nat) : Scheduler :=
  vs.foldl Scheduler.mark_dirty s

/-- Modelled from the spec: `begin_cycle` swaps the pending buffer into the
current traversal set, empties the pending buffer for marks arriving during
traversal, consumes the redraw-all flag against the live view list, and
increments the redraw generation counter (spec 4.4). -/
def Scheduler.begin_cycle (s : Scheduler) (live_views : List Nat) : Scheduler :=
  { redraw_views := [],
    _redraw_views := if s.redraw_all_views then live_views else s.redraw_views,
    redraw_all_views := false,
    _redraw_all_views := s.redraw_all_views,
    redraw_id := s.redraw_id + 1 }

theorem Scheduler.markAll_cur (s : Scheduler) (vs : List Nat) :
    (s.markAll vs)._redraw_views = s._redraw_views := by
  induction vs generalizing s with
  | nil => rfl
  | cons v rest ih => exact ih (s.mark_dirty v)

theorem Scheduler.markAll_all_flag (s : Scheduler) (vs : List Nat) :
    (s.markAll vs).redraw_all_views = s.redraw_all_views := by
  induction vs generalizing s with
  | nil => rfl
  | cons v rest ih => exact ih (s.mark_dirty v)

theorem Scheduler.markAll_pending (s : Scheduler) (vs : List Nat) :
    (s.markAll vs).redraw_views = s.redraw_views ++ vs := by
  induction vs generalizing s with
  | nil => simp [Scheduler.markAll]
  | cons v rest ih =>
    simp only [Scheduler.markAll, List.foldl_cons] at *
    rw [ih (s.mark_dirty v)]
    simp [Scheduler.mark_dirty]

/-- Modelled from the spec: the signal bus `raise(signal, generation_id)`
appends to the signal's pending list, creating it if absent; the `signals`
field of `Cx` (cx.rs line 151) is a map from signal id to a vector of
pending generation ids, embedded as a function. -/
def raiseSignal (m : Nat → List Nat) (s g : Nat) : Nat → List Nat :=
  fun t => if t = s then m t ++ [g] else m t

/-- Modelled from the spec: the signal bus `drain(signal)` returns the
signal's ordered pending list and clears it. -/
def drainSignal (m : Nat → List Nat) (s : Nat) : List Nat × (Nat → List Nat) :=
  (m s, fun t => if t = s then [] else m t)

/-- Raise a list of generation ids on one signal, in order. -/
def raiseAll (m : Nat → List Nat) (s : Nat) (gs : List Nat) : Nat → List Nat :=
  gs.foldl (fun acc g => raiseSignal acc s g) m

theorem raiseAll_self (m : Nat → List Nat) (s : Nat) (gs : List Nat) :
    raiseAll m s gs s = m s ++ gs := by
  induction gs generalizing m with
  | nil => simp [raiseAll]
  | cons g rest ih =>
    simp only [raiseAll, List.foldl_cons] at *
    rw [ih (raiseSignal m s g)]
    simp [raiseSignal]

/-- The geometry dedup-cache state of `Cx`: the `geometries` arena together
with `geometries_refs`, the map from geometry fingerprint to a weak
reference to the owning slot (cx.rs lines 98-100). Fingerprints and slot
ids are embedded as naturals; a weak reference is the slot index, dead
exactly when that index is no longer live in the arena. -/
structure GeomCache where
  geometries : Arena
  geometries_refs : List (Nat × Nat)
deriving DecidableEq

/-- Whether a fingerprint currently has a live cache entry. -/
def GeomCache.hasLiveEntry (c : GeomCache) (fp : Nat) : Bool :=
  match c.geometries_refs.lookup fp with
  | some s => c.geometries.live s
  | none => false

/-- Modelled from the spec: `intern(fingerprint, factory)` (spec 4.2); the
method is not in cx.rs, only the cache fields are. A live entry is returned
without invoking the factory; a dead weak reference is evicted and treated
as a miss; on a miss the factory runs once and the freshly allocated slot
is recorded. Returns the slot id, the new state, and how many times the
factory was invoked during this call. -/
def GeomCache.intern (c : GeomCache) (fp : Nat) : Nat × GeomCache × Nat :=
  match c.geometries_refs.lookup fp with
  | some s =>
    if c.geometries.live s then (s, c, 0)
    else
      let r := c.geometries.allocate
      (r.1, ⟨r.2, (fp, r.1) :: c.geometries_refs.filter (fun p => p.1 != fp)⟩, 1)
  | none =>
    let r := c.geometries.allocate
    (r.1, ⟨r.2, (fp, r.1) :: c.geometries_refs⟩, 1)

/-- Modelled from the spec: `mark_for_compile(shader_identity)` inserts into
the ordered pending set `draw_shader_compile_set` (cx.rs line 115, a
`BTreeSet<DrawShaderPtr>`), embedded as a strictly sorted duplicate-free
list of shader identities into which insertion keeps the order. -/
def btreeInsert (x : Nat) : List Nat → List Nat
  | [] => [x]
  | y :: ys =>
    if x < y then x :: y :: ys
    else if x = y then y :: ys
    else y :: btreeInsert x ys

/-- Build the pending compile set by marking a whole list of shader
identities, starting from the empty set of `Cx::default`. -/
def compileSetOfList (l : List Nat) : List Nat :=
  l.foldl (fun s x => btreeInsert x s) []

theorem mem_btreeInsert {x a : Nat} {l : List Nat} :
    a ∈ btreeInsert x l ↔ a = x ∨ a ∈ l := by
  induction l with
  | nil => simp [btreeInsert]
  | cons y ys ih =>
    by_cases h1 : x < y
    · simp only [btreeInsert, if_pos h1, List.mem_cons]
    · by_cases h2 : x = y
      · subst h2
        have hr : btreeInsert x (x :: ys) = x :: ys := by
          simp [btreeInsert, h1]
        rw [hr, List.mem_cons]
        tauto
      · simp only [btreeInsert, if_neg h1, if_neg h2, List.mem_cons, ih]
        tauto

theorem sorted_btreeInsert {x : Nat} {l : List Nat}
    (h : l.Sorted (fun a b => a < b)) :
    (btreeInsert x l).Sorted (fun a b => a < b) := by
  induction l with
  | nil => simp [btreeInsert]
  | cons y ys ih =>
    obtain ⟨hy, hys⟩ := List.sorted_cons.mp h
    by_cases h1 : x < y
    · simp only [btreeInsert, if_pos h1]
      refine List.sorted_cons.mpr ⟨?_, h⟩
      intro b hb
      rcases List.mem_cons.mp hb with rfl | hb
      · exact h1
      · exact Nat.lt_trans h1 (hy b hb)
    · by_cases h2 : x = y
      · subst h2
        simpa [btreeInsert, h1] using h
      · have hyx : y < x := by omega
        simp only [btreeInsert, if_neg h1, if_neg h2]
        refine List.sorted_cons.mpr ⟨?_, ih hys⟩
        intro b hb
        rcases mem_btreeInsert.mp hb with rfl | hb
        · exact hyx
        · exact hy b hb

theorem sorted_compileFold {l acc : List Nat}
    (h : acc.Sorted (fun a b => a < b)) :
    (l.foldl (fun s x => btreeInsert x s) acc).Sorted (fun a b => a < b) := by
  induction l generalizing acc with
  | nil => exact h
  | cons x rest ih => exact ih (sorted_btreeInsert h)

theorem mem_compileFold {a : Nat} {l acc : List Nat} :
    a ∈ l.foldl (fun s x => btreeInsert x s) acc ↔ a ∈ acc ∨ a ∈ l := by
  induction l generalizing acc with
  | nil => simp
  | cons x rest ih =>
    simp only [List.foldl_cons, ih, mem_btreeInsert, List.mem_cons]
    tauto

theorem sorted_compileSetOfList (l : List Nat) :
    (compileSetOfList l).Sorted (fun a b => a < b) :=
  sorted_compileFold List.sorted_nil

theorem mem_compileSetOfList {a : Nat} {l : List Nat} :
    a ∈ compileSetOfList l ↔ a ∈ l := by
  unfold compileSetOfList
  rw [mem_compileFold]
  simp

/-- The claim-relevant fields of the `Cx` struct (cx.rs lines 76-166), with
each resource `Vec` + free stack folded into an `Arena`; the textures keep
their contents since `Cx::default` installs a concrete null texture.
Collaborator-typed fields (gpu info, fonts, registries, input state,
platform handles) carry no claim and are omitted. -/
structure Cx where
  running : Bool
  counter : Nat
  platform_type : PlatformType
  windows : Arena
  passes : Arena
  views : Arena
  textures : List CxTexture
  textures_free : List Nat
  geometries : Arena
  geometries_refs : List (Nat × Nat)
  draw_shader_compile_set : List Nat
  in_redraw_cycle : Bool
  redraw_views : List Nat
  redraw_views_and_children : List Nat
  _redraw_views : List Nat
  _redraw_views_and_children : List Nat
  redraw_all_views : Bool
  _redraw_all_views : Bool
  redraw_id : Nat
  repaint_id : Nat
  event_id : Nat
  timer_id : Nat
  next_frame_id : Nat
  signal_id : Nat
  signals : List (Nat × List Nat)
  panic_now : Bool
  panic_redraw : Bool
deriving DecidableEq

/-- The null texture that `Cx::default` installs at texture slot 0
(cx.rs lines 206-218): a 4x4 BGRA image of sixteen zero pixels. -/
def nullTexture : CxTexture :=
  { desc :=
      { format := TextureFormat.ImageBGRA,
        width := some 4,
        height := some 4,
        multisample := none },
    image_u32 := [0, 0, 0, 0, 0, 0, 0, 0, 0, 0, 0, 0, 0, 0, 0, 0],
    image_f32 := [],
    update_image := true,
    platform := () }

/-- Embedding of `Cx::default` (cx.rs lines 201-316) on the fields above. -/
def Cx.default : Cx :=
  { running := true,
    counter := 0,
    platform_type := PlatformType.Unknown,
    windows := ⟨0, []⟩,
    passes := ⟨0, []⟩,
    views := ⟨0, []⟩,
    textures := [nullTexture],
    textures_free := [],
    geometries := ⟨0, []⟩,
    geometries_refs := [],
    draw_shader_compile_set := [],
    in_redraw_cycle := false,
    redraw_views := [],
    redraw_views_and_children := [],
    _redraw_views := [],
    _redraw_views_and_children := [],
    redraw_all_views := true,
    _redraw_all_views := true,
    redraw_id := 1,
    repaint_id := 1,
    event_id := 1,
    timer_id := 1,
    next_frame_id := 1,
    signal_id := 1,
    signals := [],
    panic_now := false,
    panic_redraw := false }

/-- Modelled from the spec: release on the texture arena; index 0 is the
reserved null-texture sentinel installed by `Cx::default`, and releasing it
is rejected (spec 4.1 edge case); other indices follow the generic arena
release. -/
def releaseTextureIdx (a : Arena) (i : Nat) : Option Arena :=
  if i = 0 then none else a.release i

theorem GeomCache.intern_hit {c : GeomCache} {fp s : Nat}
    (hs : c.geometries_refs.lookup fp = some s)
    (hlive : c.geometries.live s = true) :
    c.intern fp = (s, c, 0) := by
  simp [GeomCache.intern, hs, hlive]

theorem GeomCache.intern_miss {c : GeomCache} {fp : Nat} (hwf : c.geometries.WF)
    (hfresh : c.hasLiveEntry fp = false) :
    (c.intern fp).2.2 = 1 ∧
    (c.intern fp).2.1.geometries_refs.lookup fp = some (c.intern fp).1 ∧
    (c.intern fp).2.1.geometries.live (c.intern fp).1 = true := by
  unfold GeomCache.hasLiveEntry at hfresh
  unfold GeomCache.intern
  cases hl : c.geometries_refs.lookup fp with
  | none =>
    refine ⟨rfl, by simp [List.lookup], Arena.allocate_live hwf⟩
  | some s =>
    rw [hl] at hfresh
    have hdead : c.geometries.live s = false := by simpa using hfresh
    simp only [hl]
    rw [if_neg (by simp [hdead])]
    refine ⟨rfl, by simp [List.lookup], Arena.allocate_live hwf⟩

theorem filter_eq_of_filter_ne (fp : Nat) (l : List (Nat × Nat)) :
    (l.filter (fun p => p.1 != fp)).filter (fun p => p.1 == fp) = [] := by
  induction l with
  | nil => rfl
  | cons p rest ih =>
    by_cases hp : p.1 = fp
    · have h1 : (p.1 != fp) = false := by simp [hp]
      simp only [List.filter_cons, h1, Bool.false_eq_true, if_false]
      exact ih
    · have h1 : (p.1 != fp) = true := by simp [hp]
      have h2 : (p.1 == fp) = false := by simp [hp]
      simp only [List.filter_cons, h1, if_true, h2, Bool.false_eq_true, if_false]
      exact ih

/-- C1 counterexample: the claim says each of the six generation counters
is a 64-bit counter, but `signal_id` is declared `usize` (cx.rs line 130),
whose width is the platform pointer width; at pointer width 32 (the wasm32
target behind `PlatformType.Web`) the signal counter is 32-bit, not 64. -/
theorem C1_counterexample : (genCounterWidth 32 GenConcern.signal = 64) = False :=
  eq_false (by decide)

/-- C1 (amended): the redraw, repaint, event, timer and next-frame counters
of `Cx` are 64-bit; the signal counter is pointer-width (`usize`); and every
counter only increases monotonically, never resetting, across any sequence
of counter advances. -/
theorem C1_counters (ptrBits : Nat) (s : GenCounters) (cs : List GenConcern) :
    (∀ c, genCounterWidth ptrBits c =
      if c = GenConcern.signal then ptrBits else 64) ∧
    (∀ c, s.get c ≤ (s.incrAll cs).get c) := by
  constructor
  · intro c
    cases c <;> simp [genCounterWidth]
  · intro c
    exact s.get_incrAll_le cs c

/-- C2: over every sequence of allocate and release operations on one slab
arena, well-formedness of the free stack is preserved, the live indices are
pairwise distinct, allocate never returns an index that is already live,
and allocate returns the top of the free stack whenever it is non-empty,
appending a fresh index (growing the arena) only when it is empty. -/
theorem C2_slab (a0 : Arena) (ops : List ArenaOp) (h : a0.WF) :
    (Arena.applyOps a0 ops).WF ∧
    (Arena.applyOps a0 ops).liveList.Nodup ∧
    (Arena.applyOps a0 ops).live ((Arena.applyOps a0 ops).allocate).1 = false ∧
    ((Arena.applyOps a0 ops).allocate).1 =
      (Arena.applyOps a0 ops).free.headD (Arena.applyOps a0 ops).len ∧
    ((Arena.applyOps a0 ops).allocate).2.len =
      (if (Arena.applyOps a0 ops).free = []
        then (Arena.applyOps a0 ops).len + 1
        else (Arena.applyOps a0 ops).len) := by
  refine ⟨h.applyOps ops, Arena.liveList_nodup _,
    Arena.allocate_not_live (h.applyOps ops),
    Arena.allocate_fst _, Arena.allocate_len _⟩

theorem C2_witness :
    (Arena.applyOps ⟨0, []⟩
      [ArenaOp.alloc, ArenaOp.alloc, ArenaOp.rel 0, ArenaOp.alloc]).WF ∧
    (Arena.applyOps ⟨0, []⟩
      [ArenaOp.alloc, ArenaOp.alloc, ArenaOp.rel 0, ArenaOp.alloc]).liveList.Nodup ∧
    (Arena.applyOps ⟨0, []⟩
      [ArenaOp.alloc, ArenaOp.alloc, ArenaOp.rel 0, ArenaOp.alloc]).live
      ((Arena.applyOps ⟨0, []⟩
        [ArenaOp.alloc, ArenaOp.alloc, ArenaOp.rel 0, ArenaOp.alloc]).allocate).1 = false ∧
    ((Arena.applyOps ⟨0, []⟩
      [ArenaOp.alloc, ArenaOp.alloc, ArenaOp.rel 0, ArenaOp.alloc]).allocate).1 =
      (Arena.applyOps ⟨0, []⟩
        [ArenaOp.alloc, ArenaOp.alloc, ArenaOp.rel 0, ArenaOp.alloc]).free.headD
        (Arena.applyOps ⟨0, []⟩
          [ArenaOp.alloc, ArenaOp.alloc, ArenaOp.rel 0, ArenaOp.alloc]).len ∧
    ((Arena.applyOps ⟨0, []⟩
      [ArenaOp.alloc, ArenaOp.alloc, ArenaOp.rel 0, ArenaOp.alloc]).allocate).2.len =
      (if (Arena.applyOps ⟨0, []⟩
          [ArenaOp.alloc, ArenaOp.alloc, ArenaOp.rel 0, ArenaOp.alloc]).free = []
        then (Arena.applyOps ⟨0, []⟩
          [ArenaOp.alloc, ArenaOp.alloc, ArenaOp.rel 0, ArenaOp.alloc]).len + 1
        else (Arena.applyOps ⟨0, []⟩
          [ArenaOp.alloc, ArenaOp.alloc, ArenaOp.rel 0, ArenaOp.alloc]).len) :=
  C2_slab ⟨0, []⟩ [ArenaOp.alloc, ArenaOp.alloc, ArenaOp.rel 0, ArenaOp.alloc]
    (by decide)

/-- C3: interning a fingerprint with no live cache entry and then interning
the same fingerprint again (with no intervening release) returns the same
slot id both times, invokes the factory exactly once (on the first call,
never on the second), and leaves the cache state unchanged by the second
call. -/
theorem C3_intern_twice (c : GeomCache) (fp : Nat) (hwf : c.geometries.WF)
    (hfresh : c.hasLiveEntry fp = false) :
    ((c.intern fp).2.1.intern fp).1 = (c.intern fp).1 ∧
    (c.intern fp).2.2 = 1 ∧
    ((c.intern fp).2.1.intern fp).2.2 = 0 ∧
    ((c.intern fp).2.1.intern fp).2.1 = (c.intern fp).2.1 := by
  obtain ⟨h1, h2, h3⟩ := GeomCache.intern_miss hwf hfresh
  have hhit := GeomCache.intern_hit h2 h3
  rw [hhit]
  exact ⟨rfl, h1, rfl, rfl⟩

theorem C3_witness :
    ((GeomCache.intern (GeomCache.intern ⟨⟨0, []⟩, []⟩ 7).2.1 7).1 =
      (GeomCache.intern ⟨⟨0, []⟩, []⟩ 7).1) ∧
    (GeomCache.intern ⟨⟨0, []⟩, []⟩ 7).2.2 = 1 ∧
    (GeomCache.intern (GeomCache.intern ⟨⟨0, []⟩, []⟩ 7).2.1 7).2.2 = 0 ∧
    (GeomCache.intern (GeomCache.intern ⟨⟨0, []⟩, []⟩ 7).2.1 7).2.1 =
      (GeomCache.intern ⟨⟨0, []⟩, []⟩ 7).2.1 :=
  C3_intern_twice ⟨⟨0, []⟩, []⟩ 7 (by decide) rfl

/-- C4: when the cached weak reference of a fingerprint is dead (its
backing slot is no longer live), the next intern of that fingerprint is a
miss: the factory is invoked once more, the stale cache entry is removed
(only the fresh pair remains for that fingerprint), and the returned slot
is live again — never the stale hit. -/
theorem C4_stale_entry (c : GeomCache) (fp s : Nat) (hwf : c.geometries.WF)
    (hs : c.geometries_refs.lookup fp = some s)
    (hdead : c.geometries.live s = false) :
    (c.intern fp).2.2 = 1 ∧
    (c.intern fp).2.1.geometries_refs.lookup fp = some (c.intern fp).1 ∧
    (c.intern fp).2.1.geometries_refs.filter (fun p => p.1 == fp) =
      [(fp, (c.intern fp).1)] ∧
    (c.intern fp).2.1.geometries.live (c.intern fp).1 = true := by
  unfold GeomCache.intern
  simp only [hs]
  rw [if_neg (by simp [hdead])]
  refine ⟨rfl, by simp [List.lookup], ?_, Arena.allocate_live hwf⟩
  simp only [List.filter_cons, beq_self_eq_true, if_true, filter_eq_of_filter_ne]

theorem C4_witness :
    (GeomCache.intern ⟨⟨1, [0]⟩, [(7, 0)]⟩ 7).2.2 = 1 ∧
    (GeomCache.intern ⟨⟨1, [0]⟩, [(7, 0)]⟩ 7).2.1.geometries_refs.lookup 7 =
      some (GeomCache.intern ⟨⟨1, [0]⟩, [(7, 0)]⟩ 7).1 ∧
    (GeomCache.intern ⟨⟨1, [0]⟩, [(7, 0)]⟩ 7).2.1.geometries_refs.filter
      (fun p => p.1 == 7) = [(7, (GeomCache.intern ⟨⟨1, [0]⟩, [(7, 0)]⟩ 7).1)] ∧
    (GeomCache.intern ⟨⟨1, [0]⟩, [(7, 0)]⟩ 7).2.1.geometries.live
      (GeomCache.intern ⟨⟨1, [0]⟩, [(7, 0)]⟩ 7).1 = true :=
  C4_stale_entry ⟨⟨1, [0]⟩, [(7, 0)]⟩ 7 0 (by decide) rfl rfl

/-- C5: every mark issued after begin_cycle and before the matching end of
the cycle lands in the pending buffer that becomes the next cycle's
traversal set, and the traversal set of the cycle being traversed is left
exactly as begin_cycle produced it. -/
theorem C5_deferred_marks (s : Scheduler) (lv lv' ms : List Nat) :
    ((s.begin_cycle lv).markAll ms)._redraw_views =
      (s.begin_cycle lv)._redraw_views ∧
    ((s.begin_cycle lv).markAll ms).redraw_views = ms ∧
    (((s.begin_cycle lv).markAll ms).begin_cycle lv')._redraw_views = ms := by
  refine ⟨Scheduler.markAll_cur _ _, ?_, ?_⟩
  · rw [Scheduler.markAll_pending]
    rfl
  · simp [Scheduler.begin_cycle, Scheduler.markAll_all_flag,
      Scheduler.markAll_pending]

/-- C6: once the redraw-all flag is set, beginning a cycle puts every
currently-live view index into that cycle's traversal set exactly once,
the flag is false immediately afterwards, and a further cycle receives
only the pending marks — the flag does not force a second cycle. -/
theorem C6_redraw_all (s : Scheduler) (views : Arena)
    (h : s.redraw_all_views = true) :
    (∀ v, views.live v = true →
      (s.begin_cycle views.liveList)._redraw_views.count v = 1) ∧
    (s.begin_cycle views.liveList).redraw_all_views = false ∧
    ((s.begin_cycle views.liveList).begin_cycle views.liveList)._redraw_views =
      (s.begin_cycle views.liveList).redraw_views := by
  refine ⟨?_, rfl, rfl⟩
  intro v hv
  simp only [Scheduler.begin_cycle, h, if_true]
  exact List.count_eq_one_of_mem (Arena.liveList_nodup views)
    (Arena.mem_liveList.mpr hv)

theorem C6_witness :
    (∀ v, Arena.live ⟨3, [1]⟩ v = true →
      (Scheduler.begin_cycle ⟨[], [], true, true, 1⟩
        (Arena.liveList ⟨3, [1]⟩))._redraw_views.count v = 1) ∧
    (Scheduler.begin_cycle ⟨[], [], true, true, 1⟩
      (Arena.liveList ⟨3, [1]⟩)).redraw_all_views = false ∧
    ((Scheduler.begin_cycle ⟨[], [], true, true, 1⟩
      (Arena.liveList ⟨3, [1]⟩)).begin_cycle
        (Arena.liveList ⟨3, [1]⟩))._redraw_views =
      (Scheduler.begin_cycle ⟨[], [], true, true, 1⟩
        (Arena.liveList ⟨3, [1]⟩)).redraw_views :=
  C6_redraw_all ⟨[], [], true, true, 1⟩ ⟨3, [1]⟩ rfl

/-- C7: draining a signal yields exactly the generation ids raised on it,
in raise order, and clears its pending list. -/
theorem C7_signal_fifo (m : Nat → List Nat) (s : Nat) (gs : List Nat)
    (h : m s = []) :
    (drainSignal (raiseAll m s gs) s).1 = gs ∧
    (drainSignal (raiseAll m s gs) s).2 s = [] := by
  constructor
  · simp [drainSignal, raiseAll_self, h]
  · simp [drainSignal]

theorem C7_witness :
    (drainSignal (raiseAll (fun _ => []) 0 [5, 2, 9]) 0).1 = [5, 2, 9] ∧
    (drainSignal (raiseAll (fun _ => []) 0 [5, 2, 9]) 0).2 0 = [] :=
  C7_signal_fifo (fun _ => []) 0 [5, 2, 9] rfl

/-- C8: the pending shader-compile set is deterministically ordered: any
two insertion sequences over the same set of shader identities drain to the
same sorted sequence, independent of insertion order. -/
theorem C8_deterministic_order (l1 l2 : List Nat)
    (h : ∀ x, x ∈ l1 ↔ x ∈ l2) :
    compileSetOfList l1 = compileSetOfList l2 := by
  have s1 := sorted_compileSetOfList l1
  have s2 := sorted_compileSetOfList l2
  haveI : IsIrrefl Nat (fun a b => a < b) := ⟨fun a => Nat.lt_irrefl a⟩
  haveI : IsAntisymm Nat (fun a b => a < b) :=
    ⟨fun a b h1 h2 => absurd h2 (Nat.lt_asymm h1)⟩
  have hperm : (compileSetOfList l1).Perm (compileSetOfList l2) := by
    rw [List.perm_ext_iff_of_nodup s1.nodup s2.nodup]
    intro a
    rw [mem_compileSetOfList, mem_compileSetOfList]
    exact h a
  exact List.eq_of_perm_of_sorted hperm s1 s2

theorem C8_witness :
    compileSetOfList [3, 1, 2] = compileSetOfList [2, 3, 1, 3] :=
  C8_deterministic_order [3, 1, 2] [2, 3, 1, 3]
    (by intro x; simp [List.mem_cons]; tauto)

/-- C9: releasing index 0 of the texture arena is rejected (index 0 is the
reserved sentinel), and the default context pre-populates texture slot 0
with a 4x4 all-zero BGRA null texture while the texture free stack starts
empty. -/
theorem C9_texture_sentinel :
    (∀ a : Arena, releaseTextureIdx a 0 = none) ∧
    Cx.default.textures = [nullTexture] ∧
    Cx.default.textures_free = [] ∧
    nullTexture.desc.format = TextureFormat.ImageBGRA ∧
    nullTexture.desc.width = some 4 ∧
    nullTexture.desc.height = some 4 ∧
    nullTexture.image_u32 = List.replicate 16 0 :=
  ⟨fun _ => rfl, rfl, rfl, rfl, rfl, rfl, rfl⟩

/-- C10: is_desktop returns true exactly when the platform is Unknown,
Windows, OSX or Linux (with any custom_window_chrome value), and false
exactly when the platform is Web. -/
theorem C10_is_desktop (p : PlatformType) :
    (p.is_desktop = true ↔
      (p = PlatformType.Unknown ∨ p = PlatformType.Windows ∨
       p = PlatformType.OSX ∨ ∃ b, p = PlatformType.Linux b)) ∧
    (p.is_desktop = false ↔
      ∃ pr ho po pa se ha, p = PlatformType.Web pr ho po pa se ha) := by
  cases p <;> simp [PlatformType.is_desktop]
